import Mathlib

/-!
Shallow embedding of the PyBuilder coverage plugin
(`src/main/python/pybuilder/plugins/python/coverage_plugin.py`).

The plugin is orchestration glue: it runs a target task under an external
coverage instrumenter, aggregates per-module and overall coverage
percentages, writes reports, and raises a build failure when coverage is
too low and that is configured to be fatal.

Modelling conventions:
* The file targets the Python 2 era of PyBuilder (copyright 2011-2015,
  `StringIO` fallback), where `/` on two ints is floor division; we model
  it as `Int.fdiv`, which agrees with Python floor division on all signs.
* Effects (logging, instrumenter calls, report writes, module reloads,
  the raised `BuildFailedException`) are modelled as an explicit trace of
  `Event`s, built by concatenation in the order the statements execute.
* The external `coverage` library is abstracted by the data it hands
  back: `coverage.analysis(module)` yields a list of executable line
  numbers and a list of uncovered line numbers (components `[1]` and
  `[2]` of the Python tuple).  Whether `coverage.xml_report`/`coverage.save`
  raise `CoverageException` ("no data collected") is a boolean input.
* `sys.modules` membership of a discovered module is a boolean on
  `ModuleInfo`; it is checked both by the reload loop and by the
  analysis loop and does not change in between.
-/

/-- Result of `coverage.analysis(module)`: `lines` is `analysis_result[1]`
(the executable line numbers), `linesNotCovered` is `analysis_result[2]`
(the uncovered line numbers). -/
structure AnalysisResult where
  lines : List Nat
  linesNotCovered : List Nat
deriving DecidableEq

/-- A module discovered under the source tree: its dotted name, whether it
is present in `sys.modules`, and what the instrumenter's analysis of it
returns. -/
structure ModuleInfo where
  name : String
  loaded : Bool
  analysis : AnalysisResult
deriving DecidableEq

/-- The configuration the plugin reads from the project property registry
(all keys namespaced by the execution-prefix, e.g. `coverage_threshold_warn`). -/
structure Project where
  threshold_warn : Int
  break_build : Bool
  reload_modules : Bool
  exceptions : List String
  fork : Bool
deriving DecidableEq

/-- The 5-tuple returned by `build_module_report`:
`(lines_total, analysis_result[1], lines_not_covered, analysis_result[2], code_coverage)`. -/
structure ModuleReportData where
  lines_total : Int
  lines : List Nat
  lines_not_covered_count : Int
  lines_not_covered : List Nat
  code_coverage : Int
deriving DecidableEq

/-- `build_module_report(coverage, module)`.  `lines_covered` is
`lines_total - lines_not_covered`; the percentage is `100` when
`lines_total == 0`, else `0` when `lines_covered == 0`, else
`lines_covered * 100 / lines_total` with Python floor division (`Int.fdiv`). -/
def build_module_report (analysis_result : AnalysisResult) : ModuleReportData :=
  let lines_total : Int := analysis_result.lines.length
  let lines_not_covered : Int := analysis_result.linesNotCovered.length
  let lines_covered : Int := lines_total - lines_not_covered
  let code_coverage : Int :=
    if lines_total = 0 then 100
    else if lines_covered = 0 then 0
    else Int.fdiv (lines_covered * 100) lines_total
  ⟨lines_total, analysis_result.lines, lines_not_covered,
    analysis_result.linesNotCovered, code_coverage⟩

/-- One entry of `report["module_names"]`: the dict built per module in
`do_coverage` from the `build_module_report` tuple. -/
structure ModuleReport where
  module : String
  coverage : Int
  sum_lines : Int
  lines : List Nat
  sum_lines_not_covered : Int
  lines_not_covered : List Nat
deriving DecidableEq

/-- Observable steps of a `do_coverage` run, in program order. -/
inductive Event where
  | coverageErase
  | coverageStart
  | setRunningCoverage (value : Bool)
  | executeTask (task : String)
  | reloadModule (name : String)
  | coverageStop
  | warnModuleNotImported (name : String)
  | analysisCall (name : String)
  | warnModuleBelowThreshold (name : String)
  | infoModuleBelowThreshold (name : String)
  | warnOverallBelowThreshold
  | infoOverall
  | writeJsonReport
  | summaryReportCall
  | xmlReportCall
  | coverageSave
  | writeSummaryReport
  | raiseBuildFailed (threshold : Int)
deriving DecidableEq

/-- `_reimport_source_modules(project, logger, execution_prefix)`: when the
reload-modules property is set, reload each discovered module that is in
`sys.modules`. -/
def _reimport_source_modules (project : Project) (discovered : List ModuleInfo) :
    List Event :=
  if project.reload_modules then
    discovered.filterMap (fun m =>
      if m.loaded then some (Event.reloadModule m.name) else none)
  else []

/-- `_stop_coverage(coverage, project, logger, execution_prefix)`: first the
reload of source modules, then `coverage.stop()`. -/
def _stop_coverage (project : Project) (discovered : List ModuleInfo) :
    List Event :=
  _reimport_source_modules project discovered ++ [Event.coverageStop]

/-- The mutable locals of `do_coverage`'s per-module loop. -/
structure LoopState where
  trace : List Event
  modules : List String
  report_modules : List ModuleReport
  sum_lines : Int
  sum_lines_not_covered : Int
  coverage_too_low : Bool

/-- One iteration of the `for module_name in module_names` loop of
`do_coverage`: a module missing from `sys.modules` is skipped with a
warning; otherwise its report is built and appended, its lines are added
to the sums unless the module name is in the exception list, and a
below-threshold percentage warns (and sets `coverage_too_low`) or, when
exempted, logs at info level. -/
def processModule (threshold : Int) (exceptions : List String)
    (s : LoopState) (m : ModuleInfo) : LoopState :=
  if m.loaded then
    let d := build_module_report m.analysis
    let should_ignore_module := exceptions.contains m.name
    let thresholdEvents : List Event :=
      if d.code_coverage < threshold then
        if should_ignore_module then [Event.infoModuleBelowThreshold m.name]
        else [Event.warnModuleBelowThreshold m.name]
      else []
    { trace := s.trace ++ [Event.analysisCall m.name] ++ thresholdEvents
      modules := s.modules ++ [m.name]
      report_modules := s.report_modules ++
        [⟨m.name, d.code_coverage, d.lines_total, d.lines,
          d.lines_not_covered_count, d.lines_not_covered⟩]
      sum_lines :=
        if should_ignore_module then s.sum_lines else s.sum_lines + d.lines_total
      sum_lines_not_covered :=
        if should_ignore_module then s.sum_lines_not_covered
        else s.sum_lines_not_covered + d.lines_not_covered_count
      coverage_too_low := s.coverage_too_low ||
        (!should_ignore_module && decide (d.code_coverage < threshold)) }
  else
    { s with trace := s.trace ++ [Event.warnModuleNotImported m.name] }

/-- `_write_summary_report(coverage, project, modules, execution_prefix)`.
`coverage.report` renders the plain-text summary into a string buffer;
`coverage.xml_report` and `coverage.save` sit inside
`try: ... except CoverageException: pass`, so an instrumenter-side
"no data collected" exception (input `xml_raises`) stops the XML/save
step but never escapes; the buffered summary is then written to the
report sink unconditionally. -/
def _write_summary_report (xml_raises : Bool) : List Event :=
  [Event.summaryReportCall] ++
  (if xml_raises then [Event.xmlReportCall]
   else [Event.xmlReportCall, Event.coverageSave]) ++
  [Event.writeSummaryReport]

/-- The observable outcome of a `do_coverage` call: the full event trace,
the structured report content, and `raised = some t` when a
`BuildFailedException` carrying threshold `t` is raised at the end. -/
structure DoCoverageResult where
  trace : List Event
  report_modules : List ModuleReport
  overall_coverage : Int
  coverage_too_low : Bool
  raised : Option Int

/-- The trace of `do_coverage` up to and including `_stop_coverage`:
`coverage.erase()`, `coverage.start()`, set `__running_coverage` to True,
`reactor.execute_task(target_task)`, set `__running_coverage` to False,
then the stop-coverage step. -/
def startEvents (project : Project) (target_task : String)
    (discovered : List ModuleInfo) : List Event :=
  [Event.coverageErase, Event.coverageStart, Event.setRunningCoverage true,
   Event.executeTask target_task, Event.setRunningCoverage false] ++
  _stop_coverage project discovered

/-- The loop locals of `do_coverage` after the `for module_name in
module_names` loop has run over every discovered module. -/
def loopOut (project : Project) (target_task : String)
    (discovered : List ModuleInfo) : LoopState :=
  List.foldl (processModule project.threshold_warn project.exceptions)
    ⟨startEvents project target_task discovered, [], [], 0, 0, false⟩ discovered

/-- The local `overall_coverage` of `do_coverage`: `0` when `sum_lines` is
`0`, else `(sum_lines - sum_lines_not_covered) * 100 / sum_lines` with
Python floor division. -/
def overallOf (project : Project) (target_task : String)
    (discovered : List ModuleInfo) : Int :=
  if (loopOut project target_task discovered).sum_lines = 0 then 0
  else Int.fdiv
    (((loopOut project target_task discovered).sum_lines -
      (loopOut project target_task discovered).sum_lines_not_covered) * 100)
    (loopOut project target_task discovered).sum_lines

/-- The final value of the `coverage_too_low` local of `do_coverage`: its
value after the loop, or-ed with the overall-below-threshold check. -/
def tooLowOf (project : Project) (target_task : String)
    (discovered : List ModuleInfo) : Bool :=
  (loopOut project target_task discovered).coverage_too_low ||
    decide (overallOf project target_task discovered < project.threshold_warn)

/-- The full trace of `do_coverage` before the final raise decision: loop
trace, overall log line, `project.write_report("<prefix>.json", ...)`,
then `_write_summary_report`. -/
def fullTraceNoRaise (project : Project) (target_task : String)
    (discovered : List ModuleInfo) (xml_raises : Bool) : List Event :=
  (loopOut project target_task discovered).trace ++
  (if overallOf project target_task discovered < project.threshold_warn then
    [Event.warnOverallBelowThreshold]
   else [Event.infoOverall]) ++
  [Event.writeJsonReport] ++ _write_summary_report xml_raises

/-- `do_coverage(project, logger, reactor, execution_prefix, execution_name,
target_task)`: erase+start the instrumenter, set `__running_coverage`,
execute the target task, reset `__running_coverage`, stop coverage (which
reloads modules first), loop over discovered modules, compute the overall
percentage with a zero guard, write the JSON report and the summary
report, and finally raise iff `coverage_too_low` and the break-build
property are both set. -/
def do_coverage (project : Project) (target_task : String)
    (discovered : List ModuleInfo) (xml_raises : Bool) : DoCoverageResult :=
  if tooLowOf project target_task discovered && project.break_build then
    ⟨fullTraceNoRaise project target_task discovered xml_raises ++
      [Event.raiseBuildFailed project.threshold_warn],
     (loopOut project target_task discovered).report_modules,
     overallOf project target_task discovered,
     tooLowOf project target_task discovered,
     some project.threshold_warn⟩
  else
    ⟨fullTraceNoRaise project target_task discovered xml_raises,
     (loopOut project target_task discovered).report_modules,
     overallOf project target_task discovered,
     tooLowOf project target_task discovered,
     none⟩

/-- Fork-mode parent logic of `run_coverage`: after `process.start()` and
the synchronous `process.join()`, the parent raises a
`BuildFailedException` naming the child's exit code exactly when the exit
code is truthy (non-zero) and the break-build property is set.  The
returned value is `some exitcode` for that raise, `none` otherwise. -/
def run_coverage_fork (project : Project) (exitcode : Int) : Option Int :=
  if exitcode ≠ 0 ∧ project.break_build = true then some exitcode else none

/-- The percentage formula as the specification states it, for comparison
with the reports `do_coverage` emits: 100 when there are no lines, 0 when
no line is covered, else `covered * 100 / total` with floor division. -/
def coveragePct (total notCovered : Int) : Int :=
  if total = 0 then 100
  else if total - notCovered = 0 then 0
  else Int.fdiv ((total - notCovered) * 100) total

/-- Events that the per-module loop body can emit. -/
def loopEvent : Event → Bool
  | Event.analysisCall _ => true
  | Event.warnModuleNotImported _ => true
  | Event.warnModuleBelowThreshold _ => true
  | Event.infoModuleBelowThreshold _ => true
  | _ => false

/-- Recognizer for module-reload events. -/
def isReload : Event → Bool
  | Event.reloadModule _ => true
  | _ => false

/-- Recognizer for the raised build failure. -/
def isRaise : Event → Bool
  | Event.raiseBuildFailed _ => true
  | _ => false

/-- Recognizer for writes of the `__running_coverage` property. -/
def isSetRunning : Event → Bool
  | Event.setRunningCoverage _ => true
  | _ => false

/-- Recognizer for per-module analysis requests. -/
def isAnalysis : Event → Bool
  | Event.analysisCall _ => true
  | _ => false

/-- `true` when some reload event occurs strictly before the first
`coverage.stop()` call of the trace. -/
def reloadBeforeStop (tr : List Event) : Bool :=
  (tr.takeWhile (fun e => !(e == Event.coverageStop))).any isReload

/-- The `ModuleReport` dict entry `do_coverage` appends for a loaded
module, expressed from the module's analysis data. -/
def moduleReportOf (m : ModuleInfo) : ModuleReport :=
  ⟨m.name, (build_module_report m.analysis).code_coverage,
   (build_module_report m.analysis).lines_total,
   (build_module_report m.analysis).lines,
   (build_module_report m.analysis).lines_not_covered_count,
   (build_module_report m.analysis).lines_not_covered⟩

/-- A module contributes to the aggregate sums exactly when it is loaded
and its name is not in the exception list. -/
def countsForSums (exc : List String) (m : ModuleInfo) : Bool :=
  m.loaded && !(exc.contains m.name)

/-- Sum of `lines_total` over the loaded, non-exempted discovered modules. -/
def totalLines (exc : List String) (mods : List ModuleInfo) : Int :=
  ((mods.filter (countsForSums exc)).map
    (fun m => ((m.analysis.lines.length : Nat) : Int))).sum

/-- Sum of uncovered-line counts over the loaded, non-exempted
discovered modules. -/
def uncoveredLines (exc : List String) (mods : List ModuleInfo) : Int :=
  ((mods.filter (countsForSums exc)).map
    (fun m => ((m.analysis.linesNotCovered.length : Nat) : Int))).sum

/-- A module makes the per-module loop set `coverage_too_low`: it is
loaded, not exempted, and its percentage is below the threshold. -/
def moduleTooLow (th : Int) (exc : List String) (m : ModuleInfo) : Bool :=
  m.loaded && (!(exc.contains m.name) &&
    decide ((build_module_report m.analysis).code_coverage < th))

/-- Events a per-module loop iteration may emit, together with the
exemption discipline of its warn/info log lines. -/
def loopOk (exc : List String) : Event → Bool
  | Event.analysisCall _ => true
  | Event.warnModuleNotImported _ => true
  | Event.warnModuleBelowThreshold n => !(exc.contains n)
  | Event.infoModuleBelowThreshold n => exc.contains n
  | _ => false

/-- Events that may occur after `coverage.stop()` in a `do_coverage`
trace: anything except the start-up steps, reloads and a second stop,
with the warn/info exemption discipline. -/
def tailOk (exc : List String) : Event → Bool
  | Event.coverageErase => false
  | Event.coverageStart => false
  | Event.setRunningCoverage _ => false
  | Event.executeTask _ => false
  | Event.reloadModule _ => false
  | Event.coverageStop => false
  | Event.warnModuleBelowThreshold n => !(exc.contains n)
  | Event.infoModuleBelowThreshold n => exc.contains n
  | _ => true

/-- Final value of the `__running_coverage` project property after a
trace, starting from `false` (the property is unset before the run). -/
def runningCoverageAfter (tr : List Event) : Bool :=
  tr.foldl (fun b e =>
    match e with
    | Event.setRunningCoverage v => v
    | _ => b) false

/-- Concrete fixture: a loaded module with two executable lines, one of
them uncovered (50% coverage). -/
def mHalf : ModuleInfo := ⟨"m", true, ⟨[1, 2], [2]⟩⟩

/-- Concrete fixture: a loaded module with one executable line, uncovered
(0% coverage). -/
def mZero : ModuleInfo := ⟨"m", true, ⟨[1], [1]⟩⟩

/-- Concrete fixture: a loaded, fully uncovered two-line module. -/
def mUncov : ModuleInfo := ⟨"m", true, ⟨[1, 2], [1, 2]⟩⟩

/-- Concrete fixture: a loaded module with one executable line, covered
(100% coverage). -/
def mFull : ModuleInfo := ⟨"m", true, ⟨[1], []⟩⟩

/-- Concrete fixture: the default configuration (threshold 70, break the
build, reload modules, no exemptions, no fork). -/
def pPlain : Project := ⟨70, true, true, [], false⟩

/-- Concrete fixture: the default configuration with module "m" in the
exception list. -/
def pExem : Project := ⟨70, true, true, ["m"], false⟩

/-- Concrete fixture: the default configuration with the fork flag set. -/
def pFork : Project := ⟨70, true, true, [], true⟩

/-- One loop iteration only appends events, and only loop events with the
exemption discipline. -/
theorem processModule_trace (th : Int) (exc : List String) (s : LoopState)
    (m : ModuleInfo) :
    ∃ δ : List Event, (processModule th exc s m).trace = s.trace ++ δ ∧
      ∀ e ∈ δ, loopOk exc e = true := by
  by_cases hm : m.loaded
  · by_cases hlow : (build_module_report m.analysis).code_coverage < th
    · by_cases hig : m.name ∈ exc
      · exact ⟨[Event.analysisCall m.name, Event.infoModuleBelowThreshold m.name],
          by simp [processModule, hm, hlow, hig], by simp [loopOk, hig]⟩
      · exact ⟨[Event.analysisCall m.name, Event.warnModuleBelowThreshold m.name],
          by simp [processModule, hm, hlow, hig], by simp [loopOk, hig]⟩
    · exact ⟨[Event.analysisCall m.name],
        by simp [processModule, hm, hlow], by simp [loopOk]⟩
  · exact ⟨[Event.warnModuleNotImported m.name],
      by simp [processModule, hm], by simp [loopOk]⟩

/-- The loop only appends events to the trace, all of them loop events. -/
theorem loop_trace (th : Int) (exc : List String) (mods : List ModuleInfo) :
    ∀ s : LoopState, ∃ extra : List Event,
      (List.foldl (processModule th exc) s mods).trace = s.trace ++ extra ∧
      ∀ e ∈ extra, loopOk exc e = true := by
  induction mods with
  | nil => exact fun s => ⟨[], by simp, by simp⟩
  | cons m ms ih =>
    intro s
    obtain ⟨δ, hδ, hδok⟩ := processModule_trace th exc s m
    obtain ⟨extra, hex, hexok⟩ := ih (processModule th exc s m)
    refine ⟨δ ++ extra, ?_, ?_⟩
    · rw [List.foldl_cons, hex, hδ, List.append_assoc]
    · intro e he
      rcases List.mem_append.mp he with h | h
      · exact hδok e h
      · exact hexok e h

/-- The loop appends one report dict per loaded module, in order. -/
theorem loop_report (th : Int) (exc : List String) (mods : List ModuleInfo) :
    ∀ s : LoopState,
      (List.foldl (processModule th exc) s mods).report_modules =
        s.report_modules ++ mods.filterMap
          (fun m => if m.loaded then some (moduleReportOf m) else none) := by
  induction mods with
  | nil => intro s; simp
  | cons m ms ih =>
    intro s
    rw [List.foldl_cons, ih]
    by_cases hm : m.loaded
    · simp [processModule, hm, moduleReportOf, List.filterMap_cons]
    · simp [processModule, hm, List.filterMap_cons]

/-- The loop accumulates `sum_lines` over loaded, non-exempted modules. -/
theorem loop_sum_lines (th : Int) (exc : List String) (mods : List ModuleInfo) :
    ∀ s : LoopState,
      (List.foldl (processModule th exc) s mods).sum_lines =
        s.sum_lines + totalLines exc mods := by
  induction mods with
  | nil => intro s; simp [totalLines]
  | cons m ms ih =>
    intro s
    rw [List.foldl_cons, ih]
    by_cases hm : m.loaded
    · by_cases hig : m.name ∈ exc
      · simp [processModule, hm, hig, totalLines, countsForSums, List.filter_cons]
      · simp [processModule, hm, hig, totalLines, countsForSums, List.filter_cons,
          build_module_report]
        ring
    · simp [processModule, hm, totalLines, countsForSums, List.filter_cons]

/-- The loop accumulates `sum_lines_not_covered` over loaded,
non-exempted modules. -/
theorem loop_sum_not_covered (th : Int) (exc : List String)
    (mods : List ModuleInfo) :
    ∀ s : LoopState,
      (List.foldl (processModule th exc) s mods).sum_lines_not_covered =
        s.sum_lines_not_covered + uncoveredLines exc mods := by
  induction mods with
  | nil => intro s; simp [uncoveredLines]
  | cons m ms ih =>
    intro s
    rw [List.foldl_cons, ih]
    by_cases hm : m.loaded
    · by_cases hig : m.name ∈ exc
      · simp [processModule, hm, hig, uncoveredLines, countsForSums, List.filter_cons]
      · simp [processModule, hm, hig, uncoveredLines, countsForSums, List.filter_cons,
          build_module_report]
        ring
    · simp [processModule, hm, uncoveredLines, countsForSums, List.filter_cons]

/-- The loop sets `coverage_too_low` exactly when some loaded,
non-exempted module is below the threshold. -/
theorem loop_too_low (th : Int) (exc : List String) (mods : List ModuleInfo) :
    ∀ s : LoopState,
      (List.foldl (processModule th exc) s mods).coverage_too_low =
        (s.coverage_too_low || mods.any (moduleTooLow th exc)) := by
  induction mods with
  | nil => intro s; simp
  | cons m ms ih =>
    intro s
    rw [List.foldl_cons, ih]
    by_cases hm : m.loaded
    · simp [processModule, hm, moduleTooLow, List.any_cons, Bool.or_assoc]
    · simp [processModule, hm, moduleTooLow, List.any_cons]

/-- Every event of the reload step is a module reload. -/
theorem reimport_reloads (p : Project) (mods : List ModuleInfo) :
    ∀ e ∈ _reimport_source_modules p mods, isReload e = true := by
  intro e he
  unfold _reimport_source_modules at he
  split at he
  · obtain ⟨m, _, hme⟩ := List.mem_filterMap.mp he
    split at hme
    · injection hme with h
      subst h
      rfl
    · cases hme
  · cases he

/-- Loop events are legal tail events. -/
theorem tailOk_of_loopOk (exc : List String) (e : Event)
    (h : loopOk exc e = true) : tailOk exc e = true := by
  cases e <;> simp_all [loopOk, tailOk]

/-- Field equations of `do_coverage`. -/
theorem do_coverage_raised (p : Project) (t : String) (mods : List ModuleInfo)
    (xr : Bool) :
    (do_coverage p t mods xr).raised =
      (if (tooLowOf p t mods && p.break_build) = true
       then some p.threshold_warn else none) := by
  unfold do_coverage
  split <;> simp_all

/-- The `coverage_too_low` result field is the final flag value. -/
theorem do_coverage_too_low (p : Project) (t : String) (mods : List ModuleInfo)
    (xr : Bool) :
    (do_coverage p t mods xr).coverage_too_low = tooLowOf p t mods := by
  unfold do_coverage
  split <;> rfl

/-- The `overall_coverage` result field is the overall percentage. -/
theorem do_coverage_overall (p : Project) (t : String) (mods : List ModuleInfo)
    (xr : Bool) :
    (do_coverage p t mods xr).overall_coverage = overallOf p t mods := by
  unfold do_coverage
  split <;> rfl

/-- The structured report holds one entry per loaded discovered module. -/
theorem do_coverage_report (p : Project) (t : String) (mods : List ModuleInfo)
    (xr : Bool) :
    (do_coverage p t mods xr).report_modules =
      mods.filterMap (fun m => if m.loaded then some (moduleReportOf m) else none) := by
  have h := loop_report p.threshold_warn p.exceptions mods
    ⟨startEvents p t mods, [], [], 0, 0, false⟩
  unfold do_coverage
  split <;> simpa [loopOut] using h

/-- The final trace of `do_coverage`, split as the pre-raise trace plus
the conditional raise event. -/
theorem do_coverage_trace (p : Project) (t : String) (mods : List ModuleInfo)
    (xr : Bool) :
    (do_coverage p t mods xr).trace =
      fullTraceNoRaise p t mods xr ++
        (if (tooLowOf p t mods && p.break_build) = true
         then [Event.raiseBuildFailed p.threshold_warn] else []) := by
  unfold do_coverage
  split <;> simp_all

/-- The overall percentage, expressed through the aggregate sums over
loaded, non-exempted modules. -/
theorem overallOf_eq (p : Project) (t : String) (mods : List ModuleInfo) :
    overallOf p t mods =
      if totalLines p.exceptions mods = 0 then 0
      else Int.fdiv
        ((totalLines p.exceptions mods - uncoveredLines p.exceptions mods) * 100)
        (totalLines p.exceptions mods) := by
  have h1 := loop_sum_lines p.threshold_warn p.exceptions mods
    ⟨startEvents p t mods, [], [], 0, 0, false⟩
  have h2 := loop_sum_not_covered p.threshold_warn p.exceptions mods
    ⟨startEvents p t mods, [], [], 0, 0, false⟩
  unfold overallOf loopOut
  rw [h1, h2]
  simp

/-- The final flag, expressed through the per-module predicate and the
overall check. -/
theorem tooLowOf_eq (p : Project) (t : String) (mods : List ModuleInfo) :
    tooLowOf p t mods =
      (mods.any (moduleTooLow p.threshold_warn p.exceptions) ||
        decide (overallOf p t mods < p.threshold_warn)) := by
  have h := loop_too_low p.threshold_warn p.exceptions mods
    ⟨startEvents p t mods, [], [], 0, 0, false⟩
  unfold tooLowOf loopOut
  rw [h]
  simp

/-- The shape of every `do_coverage` trace: the fixed start-up steps, the
reload step, `coverage.stop()`, then only tail events. -/
theorem do_coverage_trace_shape (p : Project) (t : String)
    (mods : List ModuleInfo) (xr : Bool) :
    ∃ rest : List Event,
      (do_coverage p t mods xr).trace =
        [Event.coverageErase, Event.coverageStart, Event.setRunningCoverage true,
         Event.executeTask t, Event.setRunningCoverage false] ++
        _reimport_source_modules p mods ++ [Event.coverageStop] ++ rest ∧
      ∀ e ∈ rest, tailOk p.exceptions e = true := by
  obtain ⟨extra, hex, hok⟩ := loop_trace p.threshold_warn p.exceptions mods
    ⟨startEvents p t mods, [], [], 0, 0, false⟩
  refine ⟨extra ++
    (if overallOf p t mods < p.threshold_warn then [Event.warnOverallBelowThreshold]
     else [Event.infoOverall]) ++
    [Event.writeJsonReport] ++ _write_summary_report xr ++
    (if (tooLowOf p t mods && p.break_build) = true
     then [Event.raiseBuildFailed p.threshold_warn] else []), ?_, ?_⟩
  · rw [do_coverage_trace]
    unfold fullTraceNoRaise loopOut
    rw [hex]
    unfold startEvents _stop_coverage
    simp [List.append_assoc]
  · intro e he
    simp only [List.mem_append] at he
    rcases he with ((((h | h) | h) | h) | h)
    · exact tailOk_of_loopOk _ _ (hok e h)
    · split at h <;> simp_all [tailOk]
    · simp_all [tailOk]
    · unfold _write_summary_report at h
      cases e <;> first | rfl | (split at h <;> simp_all)
    · split at h <;> simp_all [tailOk]

/-- The summary-report step never raises the build failure. -/
theorem no_raise_in_summary (xr : Bool) (a : Int) :
    Event.raiseBuildFailed a ∉ _write_summary_report xr := by
  unfold _write_summary_report
  split <;> simp

/-- The reload step never raises the build failure. -/
theorem no_raise_in_reimport (p : Project) (mods : List ModuleInfo) (a : Int) :
    Event.raiseBuildFailed a ∉ _reimport_source_modules p mods := by
  intro h
  have := reimport_reloads p mods _ h
  simp [isReload] at this

/-- Nothing before the final raise decision raises the build failure. -/
theorem no_raise_fullTrace (p : Project) (t : String) (mods : List ModuleInfo)
    (xr : Bool) (a : Int) :
    Event.raiseBuildFailed a ∉ fullTraceNoRaise p t mods xr := by
  obtain ⟨extra, hex, hok⟩ := loop_trace p.threshold_warn p.exceptions mods
    ⟨startEvents p t mods, [], [], 0, 0, false⟩
  intro he
  unfold fullTraceNoRaise loopOut at he
  rw [hex] at he
  unfold startEvents _stop_coverage at he
  simp only [List.append_assoc, List.mem_append, List.mem_cons,
    List.mem_singleton, List.not_mem_nil, or_false, false_or] at he
  rcases he with h | h | h | h | h | h | h
  · simp at h
  · exact no_raise_in_reimport p mods a h
  · simp at h
  · exact absurd (hok _ h) (by simp [loopOk])
  · split at h <;> simp at h
  · simp at h
  · exact no_raise_in_summary xr a h

/-- The JSON report write is part of the pre-raise trace. -/
theorem mem_writeJson_fullTrace (p : Project) (t : String)
    (mods : List ModuleInfo) (xr : Bool) :
    Event.writeJsonReport ∈ fullTraceNoRaise p t mods xr := by
  unfold fullTraceNoRaise
  simp

/-- The plain-text summary write is part of the pre-raise trace. -/
theorem mem_writeSummary_fullTrace (p : Project) (t : String)
    (mods : List ModuleInfo) (xr : Bool) :
    Event.writeSummaryReport ∈ fullTraceNoRaise p t mods xr := by
  unfold fullTraceNoRaise _write_summary_report
  simp

/-- If an exempted, loaded module is below the threshold, its info-level
log line appears in the loop trace. -/
theorem loop_info_mem (th : Int) (exc : List String) (m : ModuleInfo)
    (hl : m.loaded = true) (hexc : m.name ∈ exc)
    (hlow : (build_module_report m.analysis).code_coverage < th) :
    ∀ mods : List ModuleInfo, m ∈ mods → ∀ s : LoopState,
      Event.infoModuleBelowThreshold m.name ∈
        (List.foldl (processModule th exc) s mods).trace := by
  intro mods
  induction mods with
  | nil => intro h; cases h
  | cons m2 ms ih =>
    intro hm s
    rw [List.foldl_cons]
    rcases List.mem_cons.mp hm with h | h
    · obtain ⟨extra, hex, _⟩ := loop_trace th exc ms (processModule th exc s m2)
      rw [hex]
      apply List.mem_append_left
      subst h
      simp [processModule, hl, hexc, hlow]
    · exact ih h (processModule th exc s m2)

/-- No warn-level below-threshold line is ever logged for an exempted
module name. -/
theorem warn_not_mem_of_exempt (p : Project) (t : String)
    (mods : List ModuleInfo) (xr : Bool) (n : String)
    (hn : n ∈ p.exceptions) :
    Event.warnModuleBelowThreshold n ∉ (do_coverage p t mods xr).trace := by
  obtain ⟨rest, htr, hok⟩ := do_coverage_trace_shape p t mods xr
  intro hmem
  rw [htr] at hmem
  simp only [List.append_assoc, List.mem_append, List.mem_cons,
    List.mem_singleton, List.not_mem_nil, or_false, false_or] at hmem
  rcases hmem with h | h | h | h
  · simp at h
  · have := reimport_reloads p mods _ h
    simp [isReload] at this
  · simp at h
  · have := hok _ h
    simp [tailOk, hn] at this

/-- C1: every module entry of the structured report emitted by
`do_coverage` (built by `build_module_report`) carries a coverage
percentage equal to 100 when the module's total line count is 0, to 0
when its covered line count is 0 (with a nonzero total), and otherwise to
`covered * 100 / total` with integer floor division (`coveragePct`); the
percentage is an integer by construction. -/
theorem c1_module_percentage (p : Project) (t : String) (mods : List ModuleInfo)
    (xr : Bool) (r : ModuleReport)
    (hr : r ∈ (do_coverage p t mods xr).report_modules) :
    r.coverage = coveragePct r.sum_lines r.sum_lines_not_covered := by
  rw [do_coverage_report] at hr
  obtain ⟨m, _, hme⟩ := List.mem_filterMap.mp hr
  split at hme
  · injection hme with h
    subst h
    simp [moduleReportOf, build_module_report, coveragePct]
  · cases hme

/-- Witness for C1 at a two-line module with one uncovered line. -/
theorem c1_module_percentage_witness :
    (⟨"m", 50, 2, [1, 2], 1, [2]⟩ : ModuleReport) ∈
      (do_coverage pPlain "run_unit_tests" [mHalf] false).report_modules ∧
    (⟨"m", 50, 2, [1, 2], 1, [2]⟩ : ModuleReport).coverage =
      coveragePct (⟨"m", 50, 2, [1, 2], 1, [2]⟩ : ModuleReport).sum_lines
        (⟨"m", 50, 2, [1, 2], 1, [2]⟩ : ModuleReport).sum_lines_not_covered :=
  ⟨by decide,
   c1_module_percentage pPlain "run_unit_tests" [mHalf] false _ (by decide)⟩

/-- C4: the overall coverage percentage reported by `do_coverage` equals
`(total_lines − uncovered_lines) * 100 / total_lines` (floor division)
with both sums ranging only over loaded, non-exempted modules, and equals
0 when the total-line sum is 0. -/
theorem c4_overall_formula (p : Project) (t : String) (mods : List ModuleInfo)
    (xr : Bool) :
    (do_coverage p t mods xr).overall_coverage =
      if totalLines p.exceptions mods = 0 then 0
      else Int.fdiv
        ((totalLines p.exceptions mods - uncoveredLines p.exceptions mods) * 100)
        (totalLines p.exceptions mods) := by
  rw [do_coverage_overall, overallOf_eq]

/-- C6: whenever the overall coverage is below the threshold, the
`coverage_too_low` flag is set, independent of per-module exemptions. -/
theorem c6_overall_below_sets_flag (p : Project) (t : String)
    (mods : List ModuleInfo) (xr : Bool)
    (h : (do_coverage p t mods xr).overall_coverage < p.threshold_warn) :
    (do_coverage p t mods xr).coverage_too_low = true := by
  rw [do_coverage_overall] at h
  rw [do_coverage_too_low, tooLowOf_eq]
  simp [h]

/-- Witness for C6 at a fully uncovered one-line module (overall 0%). -/
theorem c6_overall_below_sets_flag_witness :
    (do_coverage pPlain "run_unit_tests" [mZero] false).overall_coverage <
      pPlain.threshold_warn ∧
    (do_coverage pPlain "run_unit_tests" [mZero] false).coverage_too_low = true :=
  ⟨by decide,
   c6_overall_below_sets_flag pPlain "run_unit_tests" [mZero] false (by decide)⟩

/-- C7: in fork mode, after the synchronous wait, a non-zero child exit
code with break-on-failure set raises a build failure carrying that exit
code, and a zero exit code raises nothing regardless of the flag. -/
theorem c7_fork_exit (p : Project) (exitcode : Int) :
    (exitcode ≠ 0 → p.break_build = true →
      run_coverage_fork p exitcode = some exitcode) ∧
    run_coverage_fork p 0 = none := by
  constructor
  · intro h1 h2
    simp [run_coverage_fork, h1, h2]
  · simp [run_coverage_fork]

/-- Witness for C7 at exit codes 1 and 0 with break-on-failure set. -/
theorem c7_fork_exit_witness :
    run_coverage_fork pFork 1 = some 1 ∧ run_coverage_fork pFork 0 = none :=
  ⟨(c7_fork_exit pFork 1).1 (by decide) rfl, (c7_fork_exit pFork 0).2⟩

/-- C8: an instrumenter-side "no coverage data" exception during the
XML/save part of the summary step is swallowed: the plain-text summary is
still written to the report sink and the run continues identically to the
threshold check (same flag, same overall value, same report, same raise
decision). -/
theorem c8_summary_exception_swallowed (p : Project) (t : String)
    (mods : List ModuleInfo) :
    Event.writeSummaryReport ∈ (do_coverage p t mods true).trace ∧
    (do_coverage p t mods true).raised = (do_coverage p t mods false).raised ∧
    (do_coverage p t mods true).coverage_too_low =
      (do_coverage p t mods false).coverage_too_low ∧
    (do_coverage p t mods true).overall_coverage =
      (do_coverage p t mods false).overall_coverage ∧
    (do_coverage p t mods true).report_modules =
      (do_coverage p t mods false).report_modules := by
  refine ⟨?_, ?_, ?_, ?_, ?_⟩
  · rw [do_coverage_trace]
    exact List.mem_append_left _ (mem_writeSummary_fullTrace p t mods true)
  · rw [do_coverage_raised, do_coverage_raised]
  · rw [do_coverage_too_low, do_coverage_too_low]
  · rw [do_coverage_overall, do_coverage_overall]
  · rw [do_coverage_report, do_coverage_report]

/-- C3: in non-fork mode `do_coverage` raises the build failure exactly
when the `coverage_too_low` flag and the break-build property are both
set; the raised value carries the configured threshold, and the raise is
the single last event of the trace, after the JSON report and the summary
report have been written. -/
theorem c3_raise_iff_flag_and_break (p : Project) (t : String)
    (mods : List ModuleInfo) (xr : Bool) :
    ((do_coverage p t mods xr).raised =
      if ((do_coverage p t mods xr).coverage_too_low && p.break_build) = true
      then some p.threshold_warn else none) ∧
    (do_coverage p t mods xr).trace =
      fullTraceNoRaise p t mods xr ++
        (if ((do_coverage p t mods xr).coverage_too_low && p.break_build) = true
         then [Event.raiseBuildFailed p.threshold_warn] else []) ∧
    (∀ a : Int, Event.raiseBuildFailed a ∉ fullTraceNoRaise p t mods xr) ∧
    Event.writeJsonReport ∈ fullTraceNoRaise p t mods xr ∧
    Event.writeSummaryReport ∈ fullTraceNoRaise p t mods xr := by
  rw [do_coverage_too_low]
  exact ⟨do_coverage_raised p t mods xr, do_coverage_trace p t mods xr,
    fun a => no_raise_fullTrace p t mods xr a,
    mem_writeJson_fullTrace p t mods xr, mem_writeSummary_fullTrace p t mods xr⟩

/-- C9: under the precondition that the uncovered-line list is a sublist
of the executable-line list, the percentage computed by
`build_module_report` lies between 0 and 100; it is exactly 100 when the
total line count is 0 and exactly 0 when the covered count is 0 with a
nonzero total (with a zero total the first rule wins and gives 100). -/
theorem c9_percentage_bounds (a : AnalysisResult)
    (h : List.Sublist a.linesNotCovered a.lines) :
    (0 ≤ (build_module_report a).code_coverage ∧
      (build_module_report a).code_coverage ≤ 100) ∧
    ((a.lines.length : Int) = 0 → (build_module_report a).code_coverage = 100) ∧
    ((a.lines.length : Int) - (a.linesNotCovered.length : Int) = 0 →
      (a.lines.length : Int) ≠ 0 → (build_module_report a).code_coverage = 0) := by
  have hle : (a.linesNotCovered.length : Int) ≤ (a.lines.length : Int) := by
    exact_mod_cast h.length_le
  have hcc : (build_module_report a).code_coverage =
      (if (a.lines.length : Int) = 0 then 100
       else if (a.lines.length : Int) - (a.linesNotCovered.length : Int) = 0 then 0
       else Int.fdiv
         (((a.lines.length : Int) - (a.linesNotCovered.length : Int)) * 100)
         (a.lines.length : Int)) := by
    simp [build_module_report]
  rw [hcc]
  by_cases hT : (a.lines.length : Int) = 0
  · rw [if_pos hT]
    exact ⟨⟨by norm_num, le_refl 100⟩, fun _ => rfl, fun _ hne => absurd hT hne⟩
  · rw [if_neg hT]
    by_cases hC : (a.lines.length : Int) - (a.linesNotCovered.length : Int) = 0
    · rw [if_pos hC]
      exact ⟨⟨le_refl 0, by norm_num⟩, fun h0 => absurd h0 hT, fun _ _ => rfl⟩
    · rw [if_neg hC]
      have hTpos : (0 : Int) < (a.lines.length : Int) :=
        lt_of_le_of_ne (by positivity) (Ne.symm hT)
      have hCpos : (0 : Int) < (a.lines.length : Int) - (a.linesNotCovered.length : Int) :=
        lt_of_le_of_ne (sub_nonneg.mpr hle) (Ne.symm hC)
      have hfd : Int.fdiv
          (((a.lines.length : Int) - (a.linesNotCovered.length : Int)) * 100)
          (a.lines.length : Int) =
          ((a.lines.length : Int) - (a.linesNotCovered.length : Int)) * 100 /
            (a.lines.length : Int) :=
        Int.fdiv_eq_ediv _ (le_of_lt hTpos)
      rw [hfd]
      refine ⟨⟨Int.ediv_nonneg (by positivity) (le_of_lt hTpos), ?_⟩,
        fun h0 => absurd h0 hT, fun hc0 _ => absurd hc0 hC⟩
      have h1 : ((a.lines.length : Int) - (a.linesNotCovered.length : Int)) * 100 ≤
          (a.lines.length : Int) * 100 := by omega
      calc ((a.lines.length : Int) - (a.linesNotCovered.length : Int)) * 100 /
            (a.lines.length : Int)
          ≤ (a.lines.length : Int) * 100 / (a.lines.length : Int) :=
            Int.ediv_le_ediv hTpos h1
        _ = 100 := Int.mul_ediv_cancel_left 100 hT

/-- Witness for C9 at a two-line module with one uncovered line. -/
theorem c9_percentage_bounds_witness :
    List.Sublist mHalf.analysis.linesNotCovered mHalf.analysis.lines ∧
    ((0 ≤ (build_module_report mHalf.analysis).code_coverage ∧
      (build_module_report mHalf.analysis).code_coverage ≤ 100) ∧
    ((mHalf.analysis.lines.length : Int) = 0 →
      (build_module_report mHalf.analysis).code_coverage = 100) ∧
    ((mHalf.analysis.lines.length : Int) -
        (mHalf.analysis.linesNotCovered.length : Int) = 0 →
      (mHalf.analysis.lines.length : Int) ≠ 0 →
      (build_module_report mHalf.analysis).code_coverage = 0)) :=
  ⟨by decide, c9_percentage_bounds mHalf.analysis (by decide)⟩

/-- Folding the `__running_coverage` update over events that never touch
the property leaves it unchanged. -/
theorem foldl_no_set (l : List Event) (h : ∀ e ∈ l, isSetRunning e = false) :
    ∀ b : Bool,
      l.foldl (fun b e =>
        match e with
        | Event.setRunningCoverage v => v
        | _ => b) b = b := by
  induction l with
  | nil => intro b; rfl
  | cons e es ih =>
    intro b
    rw [List.foldl_cons]
    cases e <;>
      first
        | exact ih (fun x hx => h x (List.mem_cons_of_mem _ hx)) b
        | exact absurd (h _ (List.mem_cons_self _ _)) (by simp [isSetRunning])

/-- C10: `do_coverage` sets `__running_coverage` to True immediately
before executing the target task and back to False immediately after; no
later event touches the property, so it is True exactly while the target
task executes and False on every normal return. -/
theorem c10_running_coverage (p : Project) (t : String) (mods : List ModuleInfo)
    (xr : Bool) :
    (∃ rest : List Event,
      (do_coverage p t mods xr).trace =
        [Event.coverageErase, Event.coverageStart, Event.setRunningCoverage true,
         Event.executeTask t, Event.setRunningCoverage false] ++ rest ∧
      ∀ e ∈ rest, isSetRunning e = false) ∧
    runningCoverageAfter (do_coverage p t mods xr).trace = false := by
  obtain ⟨rest, htr, hok⟩ := do_coverage_trace_shape p t mods xr
  have hnoset : ∀ e ∈ _reimport_source_modules p mods ++ [Event.coverageStop] ++ rest,
      isSetRunning e = false := by
    intro e he
    rcases List.mem_append.mp he with h | h
    · rcases List.mem_append.mp h with h | h
      · have := reimport_reloads p mods _ h
        cases e <;> simp_all [isReload, isSetRunning]
      · simp at h
        subst h
        rfl
    · have := hok _ h
      cases e <;> simp_all [tailOk, isSetRunning]
  have htr2 : (do_coverage p t mods xr).trace =
      [Event.coverageErase, Event.coverageStart, Event.setRunningCoverage true,
       Event.executeTask t, Event.setRunningCoverage false] ++
      (_reimport_source_modules p mods ++ [Event.coverageStop] ++ rest) := by
    rw [htr]
    simp [List.append_assoc]
  refine ⟨⟨_, htr2, hnoset⟩, ?_⟩
  rw [htr2]
  unfold runningCoverageAfter
  rw [List.foldl_append]
  exact foldl_no_set _ hnoset _

/-- C5: a loaded module whose name is in the exception list never makes
the per-module loop set the failure flag (the flag can only come from
some non-exempted module or from the overall check); when it is below the
threshold it is logged at info level and never at warn level; and it
still appears in the structured report with its true percentage and line
data. -/
theorem c5_exempt_module (p : Project) (t : String) (mods : List ModuleInfo)
    (xr : Bool) (m : ModuleInfo) (hm : m ∈ mods) (hl : m.loaded = true)
    (hexc : m.name ∈ p.exceptions) :
    moduleTooLow p.threshold_warn p.exceptions m = false ∧
    (do_coverage p t mods xr).coverage_too_low =
      (mods.any (moduleTooLow p.threshold_warn p.exceptions) ||
        decide ((do_coverage p t mods xr).overall_coverage < p.threshold_warn)) ∧
    moduleReportOf m ∈ (do_coverage p t mods xr).report_modules ∧
    ((build_module_report m.analysis).code_coverage < p.threshold_warn →
      Event.infoModuleBelowThreshold m.name ∈ (do_coverage p t mods xr).trace) ∧
    Event.warnModuleBelowThreshold m.name ∉ (do_coverage p t mods xr).trace := by
  refine ⟨?_, ?_, ?_, ?_, ?_⟩
  · simp [moduleTooLow, hexc]
  · rw [do_coverage_too_low, do_coverage_overall, tooLowOf_eq]
  · rw [do_coverage_report]
    exact List.mem_filterMap.mpr ⟨m, hm, by simp [hl]⟩
  · intro hlow
    rw [do_coverage_trace]
    apply List.mem_append_left
    unfold fullTraceNoRaise loopOut
    apply List.mem_append_left
    apply List.mem_append_left
    apply List.mem_append_left
    exact loop_info_mem p.threshold_warn p.exceptions m hl hexc hlow mods hm _
  · exact warn_not_mem_of_exempt p t mods xr m.name hexc

/-- Witness for C5 at an exempted fully uncovered module. -/
theorem c5_exempt_module_witness :
    (mUncov ∈ [mUncov] ∧ mUncov.loaded = true ∧ mUncov.name ∈ pExem.exceptions) ∧
    (moduleTooLow pExem.threshold_warn pExem.exceptions mUncov = false ∧
    (do_coverage pExem "run_unit_tests" [mUncov] false).coverage_too_low =
      ([mUncov].any (moduleTooLow pExem.threshold_warn pExem.exceptions) ||
        decide ((do_coverage pExem "run_unit_tests" [mUncov] false).overall_coverage <
          pExem.threshold_warn)) ∧
    moduleReportOf mUncov ∈
      (do_coverage pExem "run_unit_tests" [mUncov] false).report_modules ∧
    ((build_module_report mUncov.analysis).code_coverage < pExem.threshold_warn →
      Event.infoModuleBelowThreshold mUncov.name ∈
        (do_coverage pExem "run_unit_tests" [mUncov] false).trace) ∧
    Event.warnModuleBelowThreshold mUncov.name ∉
      (do_coverage pExem "run_unit_tests" [mUncov] false).trace) :=
  ⟨⟨by decide, rfl, by decide⟩,
   c5_exempt_module pExem "run_unit_tests" [mUncov] false mUncov (by decide) rfl
     (by decide)⟩

/-- C2 counterexample: with the reload flag set and one loaded discovered
module, the trace of `do_coverage` contains exactly one `coverage.stop()`
event, contains a reload of the module, and that reload occurs strictly
before the stop: `_stop_coverage` calls `_reimport_source_modules` first
and `coverage.stop()` second, so the reload does NOT happen after
instrumentation stops as the claim states. -/
theorem c2_reload_before_stop_counterexample :
    reloadBeforeStop (do_coverage pPlain "run_unit_tests" [mFull] false).trace = true ∧
    Event.reloadModule "m" ∈ (do_coverage pPlain "run_unit_tests" [mFull] false).trace ∧
    List.count Event.coverageStop
      (do_coverage pPlain "run_unit_tests" [mFull] false).trace = 1 := by
  refine ⟨by decide, by decide, by decide⟩

/-- C2 (amended): when the reload flag is set, each discovered module
still present in the loaded-module table is reloaded during the
stop-coverage step — after the target task returns but BEFORE the
instrumenter's stop call — and before any per-module analysis is
requested; when the flag is unset, no module is reloaded. -/
theorem c2_amended_reload_order (p : Project) (t : String)
    (mods : List ModuleInfo) (xr : Bool) :
    ∃ rest : List Event,
      (do_coverage p t mods xr).trace =
        [Event.coverageErase, Event.coverageStart, Event.setRunningCoverage true,
         Event.executeTask t, Event.setRunningCoverage false] ++
        (if p.reload_modules then
          mods.filterMap (fun m =>
            if m.loaded then some (Event.reloadModule m.name) else none)
         else []) ++ [Event.coverageStop] ++ rest ∧
      (∀ e ∈ rest, isReload e = false) ∧
      (∀ n : String, Event.analysisCall n ∈ (do_coverage p t mods xr).trace →
        Event.analysisCall n ∈ rest) := by
  obtain ⟨rest, htr, hok⟩ := do_coverage_trace_shape p t mods xr
  have hre : _reimport_source_modules p mods =
      (if p.reload_modules then
        mods.filterMap (fun m =>
          if m.loaded then some (Event.reloadModule m.name) else none)
       else []) := rfl
  refine ⟨rest, by rw [htr, hre], ?_, ?_⟩
  · intro e he
    have := hok _ he
    cases e <;> simp_all [tailOk, isReload]
  · intro n hn
    rw [htr] at hn
    simp only [List.append_assoc, List.mem_append, List.mem_cons,
      List.mem_singleton, List.not_mem_nil, or_false, false_or] at hn
    rcases hn with h | h | h | h
    · simp at h
    · have := reimport_reloads p mods _ h
      simp [isReload] at this
    · simp at h
    · exact h
